import Mathlib

/-!
Verification of the MEP2 receive-side PDU parser pipeline.

This file shallowly embeds the C++ sources of the MCImail repository
(checksum accumulator, percent-decoding string codec, MCI-ID grammar,
address field parser, date/timezone decoder, command trie and the
line-by-line PDU framer) as executable Lean definitions, and proves
properties of the embedded code.

Strings from the wire are modelled as lists of byte values
(`List Nat`, each element a byte 0..255); machine 16-bit arithmetic is
modelled with explicit `% 65536`.
-/

set_option maxRecDepth 4096

namespace MCImail

instance {ε α : Type} [DecidableEq ε] [DecidableEq α] : DecidableEq (Except ε α) := fun a b =>
  match a, b with
  | .ok x, .ok y => if h : x = y then .isTrue (by simp [h]) else .isFalse (by simp [h])
  | .error x, .error y => if h : x = y then .isTrue (by simp [h]) else .isFalse (by simp [h])
  | .ok _, .error _ => .isFalse (by simp)
  | .error _, .ok _ => .isFalse (by simp)

/-- Bytes of a Lean string literal, used to write concrete byte-list
inputs in theorems. -/
def strBytes (s : String) : List Nat := s.toList.map Char.toNat

/-- `lower` from string_utils.hpp: ASCII lowercase of one byte. -/
def lowerByte (b : Nat) : Nat := if 65 ≤ b ∧ b ≤ 90 then b + 32 else b

/-- `lstrip` from string_utils.hpp: drop leading spaces and tabs. -/
def lstripBytes (l : List Nat) : List Nat := l.dropWhile (fun b => b == 32 || b == 9)

/-- `rstrip` from string_utils.hpp: drop trailing spaces and tabs. -/
def rstripBytes (l : List Nat) : List Nat :=
  (l.reverse.dropWhile (fun b => b == 32 || b == 9)).reverse

/-- `char_to_hex` from string_utils.hpp: hex digit value of a byte,
`none` modelling the thrown `std::invalid_argument`. -/
def char_to_hex (b : Nat) : Option Nat :=
  if 48 ≤ b ∧ b ≤ 57 then some (b - 48)
  else if 97 ≤ lowerByte b ∧ lowerByte b ≤ 102 then some (lowerByte b - 97 + 10)
  else none

/-- `icompare(haystack, needle)` from string_utils.hpp, needle already
lowercase: case-insensitive comparison that returns `true` when the
needle is exhausted (prefix semantics), after an initial length guard. -/
def icompare_core : List Nat → List Nat → Bool
  | [], _ => true
  | _ :: _, [] => true
  | c :: hs, p :: ps => lowerByte c == p && icompare_core hs ps

/-- `icompare` from string_utils.hpp including the length guard. -/
def icompare (haystack needle : List Nat) : Bool :=
  if haystack.length < needle.length then false else icompare_core haystack needle

/-- `PduChecksum::add_line` from mep2_pdu.hpp: add the low 7 bits of
every byte into the 16-bit accumulator (each `+=` wraps mod 2^16). -/
def add_line (cs : Nat) (line : List Nat) : Nat :=
  line.foldl (fun acc b => (acc + (b &&& 0x7F)) % 65536) cs

/-- The `PduChecksum(std::string_view)` constructor: exactly 4 bytes,
each a hex digit, accumulated by `<<= 4; |=`; `none` models the thrown
`std::invalid_argument`. -/
def checksum_from_text (s : List Nat) : Option Nat :=
  if s.length ≠ 4 then none
  else s.foldlM (fun acc c => (char_to_hex c).map (fun h => ((acc <<< 4) % 65536) ||| h)) 0

/-- The `Mep2Error` exception hierarchy from mep2_errors.hpp.
`checksumErr wanted actual` carries the two values the C++ formats into
the `PduChecksumError` context string. -/
inductive Mep2Err where
  /-- `PduSyntaxError` (code 301) with its context message. -/
  | synErr (ctx : String)
  /-- `PduMalformedDataError` (code 303) with its context message. -/
  | malformed (ctx : String)
  /-- `PduChecksumError` (code 403); payload is the sender (wanted) and
  computed (actual) checksum values from the context message. -/
  | checksumErr (wanted actual : Nat)
  /-- `PduEnvelopeDataError` (code 310). -/
  | envProblem (ctx : String)
  /-- `PduNoEnvelopeDataError` (code 311). -/
  | noEnvData
  /-- `PduToRequiredError` (code 312). -/
  | toRequired
deriving DecidableEq

/-- The numeric MEP2 status code of each error class (mep2_errors.hpp). -/
def Mep2Err.code : Mep2Err → Nat
  | .synErr _ => 301
  | .malformed _ => 303
  | .checksumErr _ _ => 403
  | .envProblem _ => 310
  | .noEnvData => 311
  | .toRequired => 312

/-- `compare_text_checksum` from mep2_pdu_parser.cpp: `ZZZZ` bypass,
then parse the sender checksum (parse failure becomes a 301), then
compare (mismatch is a 403). `none` means the comparison succeeded. -/
def compare_text_checksum (checksum : Nat) (sc : List Nat) : Option Mep2Err :=
  if icompare sc (strBytes ("zzzz")) then none
  else
    match checksum_from_text sc with
    | none => some (.synErr ("Checksum has invalid characters"))
    | some sender =>
      if checksum ≠ sender then some (.checksumErr sender checksum) else none

/-- `tab_fill` from string_utils.cpp: append spaces up to the next
multiple of 4 of the output length (a full 4 when already aligned). -/
def tab_fill (out : List Nat) : List Nat :=
  out ++ List.replicate (4 - out.length % 4) 32

/-- `decode_percent` from string_utils.cpp on the three raw bytes of a
percent escape (the length-3 precondition holds at both call sites that
can reach it). -/
def decode_percent (b0 b1 b2 : Nat) : Except String Nat :=
  if b0 ≠ 37 then .error ("expected % code")
  else
    match char_to_hex b1, char_to_hex b2 with
    | some h1, some h2 => .ok ((h1 <<< 4) ||| h2)
    | _, _ => .error ("Input is not a valid hex string")

/-- The loop of `decode_string` from string_utils.cpp | first argument
is the unread input, second the output built so far.

Each input byte is masked to 7 bits; `/` is rejected; `%` introduces an
escape (with the transparent `%\r\n` checked on raw bytes first); a
decoded byte is masked again, a decoded 0x0D runs the source's
look-ahead (whose guard `i + 2 >= sv.length()` examines the final hex
digit of the escape itself, here `r2`, so its body can also throw the
short-substring `decode_percent` error), a decoded 0x0A/0x0B/0x0C is
dropped and anything else is emitted. Unescaped bytes go through the
control-byte switch: tab fill, CR-LF pairing, dropped codes, the
kill-line codes 0x15/0x18, and DEL. -/
def decode_loop : List Nat → List Nat → Except String (List Nat)
  | [], out => .ok out
  | b :: rest, out =>
    let c := b &&& 0x7F
    if c = 47 then .error ("Stray / in data")
    else if c = 37 then
      match rest with
      | r1 :: r2 :: rest2 =>
        if r1 = 13 ∧ r2 = 10 then decode_loop rest2 out
        else
          match decode_percent b r1 r2 with
          | .error e => .error e
          | .ok v =>
            let d := v &&& 0x7F
            if d = 13 then
              if rest2.length ≤ 1 ∧ r2 = 37 then .error ("Invalid % code")
              else decode_loop rest2 out
            else if d = 10 ∨ d = 11 ∨ d = 12 then decode_loop rest2 out
            else decode_loop rest2 (out ++ [d])
      | _ => .error ("Invalid % code: too little space")
    else if c = 9 then decode_loop rest (tab_fill out)
    else if c = 13 then
      if rest.head? = some 10 then
        -- the raw LF is consumed here in the source; leaving it to the
        -- next iteration is equivalent, as a lone masked 0x0A is dropped
        decode_loop rest (out ++ [13, 10])
      else decode_loop rest out
    else if c = 10 ∨ c = 11 ∨ c = 12 ∨ c = 15 ∨ c = 17 ∨ c = 18 ∨ c = 19 then
      decode_loop rest out
    else if c = 21 ∨ c = 24 then decode_loop rest []
    else if c = 127 then decode_loop rest out.dropLast
    else decode_loop rest (out ++ [c])

/-- `decode_string` from string_utils.cpp. -/
def decode_string (sv : List Nat) : Except String (List Nat) := decode_loop sv []

/-- Consume exactly `n` ASCII digit bytes, returning the rest
(one regex `\d{n}` group of the `is_mciid` pattern). -/
def eatDigits : Nat → List Nat → Option (List Nat)
  | 0, l => some l
  | _ + 1, [] => none
  | n + 1, b :: l => if 48 ≤ b ∧ b ≤ 57 then eatDigits n l else none

/-- Consume one hyphen byte. -/
def eatHyphen : List Nat → Option (List Nat)
  | [] => none
  | b :: l => if b = 45 then some l else none

/-- `is_mciid` from address.cpp: anchored match of the regex
`^(\d{3}-\d{4}|\d{3}-\d{3}-\d{4}|\d{7}|\d{10})$`. -/
def is_mciid (s : List Nat) : Bool :=
  (((eatDigits 3 s).bind eatHyphen).bind (eatDigits 4) == some []) ||
  (((((eatDigits 3 s).bind eatHyphen).bind (eatDigits 3)).bind eatHyphen).bind (eatDigits 4)
    == some []) ||
  (eatDigits 7 s == some []) ||
  (eatDigits 10 s == some [])

/-- The `000` / `000-` prefix-stripping step of `canonicalize_mciid`
(`line.remove_prefix(line[3] == '-' ? 4 : 3)` guarded by
`line.length() >= 10 && line.starts_with("000")`). -/
def canonicalize_strip (s : List Nat) : List Nat :=
  if 10 ≤ s.length ∧ s.take 3 = [48, 48, 48] then
    (if s[3]? = some 45 then s.drop 4 else s.drop 3)
  else s

/-- The hyphen-insertion tail of `canonicalize_mciid`: 8- and
12-character forms are already canonical; 7 digits become `NNN-NNNN`;
10 digits become `NNN-NNN-NNNN`. -/
def canonicalize_rest (s1 : List Nat) : List Nat :=
  if s1.length = 8 ∨ s1.length = 12 then s1
  else if s1.length = 7 then s1.take 3 ++ 45 :: s1.drop 3
  else s1.take 3 ++ 45 :: ((s1.drop 3).take 3 ++ 45 :: s1.drop 6)

/-- `canonicalize_mciid` from address.cpp: reject non-MCI-IDs, keep
8-character forms, strip a leading `000`/`000-` from 10+-character
forms, then insert hyphens into the remaining pure-digit forms. -/
def canonicalize_mciid (s : List Nat) : Except String (List Nat) :=
  if ¬ is_mciid s then .error ("Invalid MCI ID format")
  else if s.length = 8 then .ok s
  else .ok (canonicalize_rest (canonicalize_strip s))

/-- `RawAddress` from address.hpp (byte-list fields). -/
structure RawAddress where
  name : List Nat := []
  id : List Nat := []
  organization : List Nat := []
  location : List Nat := []
  unresolvedOrgLoc1 : List Nat := []
  unresolvedOrgLoc2 : List Nat := []
  alert : List Nat := []
  ems : List Nat := []
  mbx : List (List Nat) := []
  hasOptions : Bool := false
  board : Bool := false
  instant : Bool := false
  list : Bool := false
  owner : Bool := false
  onite : Bool := false
  print : Bool := false
  receipt : Bool := false
  noReceipt : Bool := false
deriving DecidableEq

/-- `RawAddress::parse_field` from address.cpp: dispatch on `EMS:` /
`MBX:` (case-insensitive), modelling the C++ exception as the second
component while keeping the mutations that happened before the throw
(in particular the MBX push_back that precedes the 305 length check). -/
def RawAddress.parse_field (a : RawAddress) (field information : List Nat) :
    RawAddress × Option Mep2Err :=
  if field.length < 4 then (a, some (.malformed ("Unknown field type")))
  else if icompare field (strBytes ("ems:")) then
    if a.ems ≠ [] then (a, some (.malformed ("Multiple EMS directive in address")))
    else if information.length = 0 then (a, some (.malformed ("EMS cannot be empty")))
    else ({ a with ems := information }, none)
  else if icompare field (strBytes ("mbx:")) then
    if a.ems = [] then (a, some (.malformed ("MBX without EMS")))
    else if information.length = 0 then (a, some (.malformed ("MBX cannot be empty")))
    else
      let a2 := { a with mbx := a.mbx ++ [information] }
      if 305 < (a2.mbx.map (fun m => m.length)).sum then
        (a2, some (.malformed ("MBX routing info larger than 305 characters")))
      else (a2, none)
  else (a, some (.malformed ("Unknown address field")))

/-- The `mep2_to_iana` initializer list from date.cpp, in source order,
including the duplicated `MST` key; `std::unordered_map` construction
keeps the first occurrence of a duplicated key. -/
def mep2_to_iana_entries : List (List Nat × List Nat) :=
  [(strBytes ("AHS"), strBytes ("Etc/GMT+10")), (strBytes ("AHD"), strBytes ("Etc/GMT+9")),
   (strBytes ("YST"), strBytes ("Etc/GMT+9")), (strBytes ("YDT"), strBytes ("Etc/GMT+8")),
   (strBytes ("PST"), strBytes ("Etc/GMT+8")), (strBytes ("PDT"), strBytes ("Etc/GMT+7")),
   (strBytes ("MST"), strBytes ("Etc/GMT+7")), (strBytes ("MDT"), strBytes ("Etc/GMT+6")),
   (strBytes ("CST"), strBytes ("Etc/GMT+6")), (strBytes ("CDT"), strBytes ("Etc/GMT+5")),
   (strBytes ("EST"), strBytes ("Etc/GMT+5")), (strBytes ("EDT"), strBytes ("Etc/GMT+4")),
   (strBytes ("AST"), strBytes ("Etc/GMT+4")), (strBytes ("GMT"), strBytes ("Etc/GMT")),
   (strBytes ("BST"), strBytes ("Etc/GMT-1")), (strBytes ("WES"), strBytes ("Etc/GMT-1")),
   (strBytes ("WED"), strBytes ("Etc/GMT-2")), (strBytes ("EMT"), strBytes ("Etc/GMT-2")),
   (strBytes ("MTS"), strBytes ("Etc/GMT-3")), (strBytes ("MTD"), strBytes ("Etc/GMT-4")),
   (strBytes ("JST"), strBytes ("Etc/GMT-9")), (strBytes ("EAD"), strBytes ("Etc/GMT-10")),
   (strBytes ("AKT"), strBytes ("Etc/GMT+9")), (strBytes ("HST"), strBytes ("Etc/GMT+10")),
   (strBytes ("MST"), strBytes ("Etc/GMT-3")), (strBytes ("SNG"), strBytes ("Etc/GMT-8"))]

/-- Lookup in the timezone map: first matching (first-inserted) entry. -/
def mep2_to_iana_find (z : List Nat) : Option (List Nat) :=
  (mep2_to_iana_entries.find? (fun p => p.1 == z)).map (fun p => p.2)

/-- Leap-year rule of the proleptic Gregorian calendar. -/
def isLeapYear (y : Nat) : Bool := y % 4 == 0 && (y % 100 != 0 || y % 400 == 0)

/-- Number of days of month `m` (1..12) in year `y`. -/
def daysInMonth (m y : Nat) : Nat :=
  if m = 2 then (if isLeapYear y then 29 else 28)
  else if m = 4 ∨ m = 6 ∨ m = 9 ∨ m = 11 then 30
  else 31

/-- Day of week by Zeller's congruence (0 = Saturday, 1 = Sunday, ...). -/
def zellerDow (d m y : Nat) : Nat :=
  let m2 := if m ≤ 2 then m + 12 else m
  let y2 := if m ≤ 2 then y - 1 else y
  let k := y2 % 100
  let j := y2 / 100
  (d + (13 * (m2 + 1)) / 5 + k + k / 4 + j / 4 + 5 * j) % 7

/-- Lowercased 3-letter weekday abbreviations with their Zeller day
numbers. -/
def weekdayTable : List (List Nat × Nat) :=
  [(strBytes ("sun"), 1), (strBytes ("mon"), 2), (strBytes ("tue"), 3),
   (strBytes ("wed"), 4), (strBytes ("thu"), 5), (strBytes ("fri"), 6),
   (strBytes ("sat"), 0)]

/-- Lowercased 3-letter month abbreviations with their month numbers. -/
def monthTable : List (List Nat × Nat) :=
  [(strBytes ("jan"), 1), (strBytes ("feb"), 2), (strBytes ("mar"), 3),
   (strBytes ("apr"), 4), (strBytes ("may"), 5), (strBytes ("jun"), 6),
   (strBytes ("jul"), 7), (strBytes ("aug"), 8), (strBytes ("sep"), 9),
   (strBytes ("oct"), 10), (strBytes ("nov"), 11), (strBytes ("dec"), 12)]

/-- Is the byte an ASCII digit. -/
def isDigitByte (b : Nat) : Bool := 48 ≤ b && b ≤ 57

/-- Numeric value of two digit bytes. -/
def twoDigits (a b : Nat) : Nat := (a - 48) * 10 + (b - 48)

/-- Model of a successful `std::chrono::parse` of
`"%a %B %2d, %4Y %2I:%2M %p"` over the first 25 bytes of the
timestamp, in the fixed-width canonical shape the 29-byte length
constraint of `Date::parse` leaves room for: abbreviated
case-insensitive weekday and month names, two-digit day, four-digit
year, two-digit 12-hour clock with minutes, and `AM`/`PM`; the stream
parser also rejects a weekday inconsistent with the parsed date, and
out-of-range day / hour / minute fields. -/
def datetime_ok (l : List Nat) : Bool :=
  match l with
  | [w1, w2, w3, 32, m1, m2, m3, 32, d1, d2, 44, 32, y1, y2, y3, y4, 32,
     h1, h2, 58, n1, n2, 32, p1, p2] =>
    match weekdayTable.find? (fun p => p.1 == [lowerByte w1, lowerByte w2, lowerByte w3]),
          monthTable.find? (fun p => p.1 == [lowerByte m1, lowerByte m2, lowerByte m3]) with
    | some wd, some mo =>
      isDigitByte d1 && isDigitByte d2 && isDigitByte y1 && isDigitByte y2 &&
      isDigitByte y3 && isDigitByte y4 && isDigitByte h1 && isDigitByte h2 &&
      isDigitByte n1 && isDigitByte n2 &&
      (let d := twoDigits d1 d2
       let y := ((y1 - 48) * 10 + (y2 - 48)) * 100 + twoDigits y3 y4
       let h := twoDigits h1 h2
       let n := twoDigits n1 n2
       1 ≤ d && d ≤ daysInMonth mo.2 y && 1 ≤ h && h ≤ 12 && n ≤ 59 &&
       (lowerByte p1 == 97 || lowerByte p1 == 112) && lowerByte p2 == 109 &&
       zellerDow d mo.2 y == wd.2)
    | _, _ => false
  | _ => false

/-- Result of a successful `Date::parse`: the verbatim original zone
code and the fixed-offset identifier it resolved to (the construction
of the two `zoned_time` members always succeeds for the `Etc/GMT...`
identifiers of the table, so it is not a failure source). -/
structure DateRes where
  origZone : List Nat
  ianaZone : List Nat
deriving DecidableEq

/-- `Date::parse` from date.cpp: exactly 29 bytes, a successful
datetime parse of the leading fixed-width fields, then the 3-byte zone
code at offset 26 resolved through the `mep2_to_iana` table; any
failure is the thrown `std::invalid_argument`. -/
def date_parse (l : List Nat) : Except String DateRes :=
  if l.length ≠ 29 then .error ("Failed to parse date and time")
  else if ¬ datetime_ok (l.take 25) then .error ("Failed to parse date and time at position")
  else
    match mep2_to_iana_find (l.drop 26) with
    | none => .error ("Invalid timezone specifier")
    | some iana => .ok ⟨l.drop 26, iana⟩

/-- `PduType::type_id` from mep2_pdu.hpp. -/
inductive PduTypeId where
  | busy | comment | create | endPdu | env | hdr | init | reply | reset
  | scan | send | term | text | turn | verify
deriving DecidableEq

/-- `PduType::is_single_line` from mep2_pdu.hpp. -/
def PduTypeId.is_single_line : PduTypeId → Bool
  | .create | .send | .scan | .busy | .turn | .term => true
  | _ => false

/-- `is_valid_command_char` from trie.hpp: an ASCII letter. -/
def is_valid_command_char (b : Nat) : Bool :=
  (97 ≤ b && b ≤ 122) || (65 ≤ b && b ≤ 90)

/-- The case-insensitive keyword trie of trie.hpp, with children keyed
by the lowercased byte. -/
inductive PduTrie where
  | node (isEnd : Bool) (cmd : PduTypeId) (children : Nat → Option PduTrie)

/-- A trie node with no children (the `consteval Node()` state; `cmd`
defaults to the first enumerator). -/
def PduTrie.empty : PduTrie := .node false .busy (fun _ => none)

/-- `Trie::insert` from trie.hpp: walk/create the path of lowercased
bytes and mark the final node as terminal with the command. -/
def PduTrie.insert (t : PduTrie) : List Nat → PduTypeId → PduTrie
  | [], cmd =>
    match t with
    | .node _ _ ch => .node true cmd ch
  | b :: rest, cmd =>
    match t with
    | .node e c ch =>
      let idx := lowerByte b
      let child :=
        match ch idx with
        | some t2 => t2.insert rest cmd
        | none => PduTrie.empty.insert rest cmd
      .node e c (fun j => if j = idx then some child else ch j)

/-- The loop of `Trie::find` from trie.hpp: follow children while bytes
are letters; stop at the first non-letter or at the end of input; the
node reached must be terminal. Returns the command and the number of
consumed bytes. -/
def PduTrie.findLoop : PduTrie → List Nat → Nat → Option (PduTypeId × Nat)
  | .node e c _, [], consumed => if e then some (c, consumed) else none
  | .node e c ch, b :: rest, consumed =>
    if ¬ is_valid_command_char b then (if e then some (c, consumed) else none)
    else
      match ch (lowerByte b) with
      | none => none
      | some t2 => t2.findLoop rest (consumed + 1)

/-- `Trie::find` from trie.hpp: on success the matched prefix is
consumed from the input. -/
def PduTrie.find (t : PduTrie) (l : List Nat) : Option (PduTypeId × List Nat) :=
  (t.findLoop l 0).map (fun r => (r.1, l.drop r.2))

/-- `create_pdu_trie` from mep2_pdu_parser.hpp: the fifteen keywords. -/
def pdu_trie : PduTrie :=
  ((((((((((((((PduTrie.empty.insert (strBytes ("busy")) .busy).insert
    (strBytes ("comment")) .comment).insert
    (strBytes ("create")) .create).insert
    (strBytes ("end")) .endPdu).insert
    (strBytes ("env")) .env).insert
    (strBytes ("hdr")) .hdr).insert
    (strBytes ("init")) .init).insert
    (strBytes ("reply")) .reply).insert
    (strBytes ("reset")) .reset).insert
    (strBytes ("scan")) .scan).insert
    (strBytes ("send")) .send).insert
    (strBytes ("term")) .term).insert
    (strBytes ("text")) .text).insert
    (strBytes ("turn")) .turn).insert
    (strBytes ("verify")) .verify

/-- `validate_pdu_line` from mep2_pdu_parser.cpp: length, leading `/`,
at most one `*` and at most one `/`. -/
def validate_pdu_line (line : List Nat) : Option Mep2Err :=
  if line.length < 5 then some (.synErr ("PDU invalid: too short"))
  else if line.head? ≠ some 47 then some (.synErr ("PDU invalid: no leading slash"))
  else if 1 < line.count 42 then some (.synErr ("Stray star in PDU"))
  else if 1 < line.count 47 then some (.synErr ("Stray slash in PDU"))
  else none

/-- `strip_pdu_crlf` from mep2_pdu_parser.cpp: cut at the first CR
(error when absent) and right-strip blanks. -/
def strip_pdu_crlf (line : List Nat) : Except Mep2Err (List Nat) :=
  if 13 ∈ line then .ok (rstripBytes (line.takeWhile (fun b => b ≠ 13)))
  else .error (.synErr ("No carriage return in PDU"))

/-- `PduParser::parse_pdu_start`: eat the leading `/` and ask the trie
(`parse_pdu_type`) for the keyword, consuming it. -/
def parse_pdu_start (l : List Nat) : Option (PduTypeId × List Nat) :=
  pdu_trie.find (l.drop 1)

/-- `PduParser::validate_checksum` (production build) acting on a given
accumulator value: locate the `*`, require it exactly 5 bytes from the
end, accumulate the prefix including the `*`, then compare with the
4 bytes after it. Returns the updated accumulator (the add happens
before any comparison error is thrown) and the error, if any. -/
def validate_checksum_fn (cs : Nat) (line : List Nat) : Nat × Option Mep2Err :=
  match line.findIdx? (fun b => b == 42) with
  | none => (cs, some (.synErr ("PDU line does not have a star")))
  | some star =>
    if star + 5 ≠ line.length then (cs, some (.synErr ("Checksum too short")))
    else
      let cs2 := add_line cs (line.take (star + 1))
      (cs2, compare_text_checksum cs2 ((line.drop (star + 1)).take 4))

/-- The virtual interface of the `Pdu` class hierarchy: the framer
constructs a body for a type (`none` for the unhandled `default:`
cases of the `emplace` switch), routes options and information lines to
it, finalizes it, and reads its type back. Each operation returns the
updated body together with the thrown exception, if any, so that
mutations made before a throw persist as they do in the source. -/
structure BodyOps (β : Type) where
  make : PduTypeId → Option β
  parseOptions : β → List Nat → β × Option Mep2Err
  parseLine : β → List Nat → β × Option Mep2Err
  finalize : β → β × Option Mep2Err
  typeId : β → PduTypeId

/-- `PduParser`'s state enumeration. -/
inductive FramerState where
  | idle | parsing | complete
deriving DecidableEq

/-- The mutable members of `PduParser` (the body's checksum lives in
the body in the source and is re-zeroed when a body is emplaced; it is
kept alongside here). -/
structure ParserSt (β : Type) where
  fstate : FramerState
  checksum : Nat
  currentType : Option PduTypeId
  currentError : Option Mep2Err
  body : β
deriving DecidableEq

/-- A freshly constructed `PduParser` (default `PduVariant` holds the
first alternative with a zero checksum). -/
def initParser {β : Type} (b : β) : ParserSt β :=
  { fstate := .idle, checksum := 0, currentType := none, currentError := none, body := b }

/-- `PduParser::parse_first_line` from mep2_pdu_parser.cpp. Mutations
(body emplacement, checksum accumulation) happen in source order, so a
later throw leaves them in place. -/
def parse_first_line {β : Type} (ops : BodyOps β) (st : ParserSt β) (line : List Nat) :
    ParserSt β × Option Mep2Err :=
  match validate_pdu_line line with
  | some e => (st, some e)
  | none =>
  match strip_pdu_crlf line with
  | .error e => (st, some e)
  | .ok line_strip =>
  match parse_pdu_start line_strip with
  | none => (st, some (.synErr ("Unknown PDU type")))
  | some (ty, rest0) =>
  let line_parse := lstripBytes rest0
  match ops.make ty with
  | none => (st, some (.synErr ("Unhandled PDU type")))
  | some body0 =>
  if ty.is_single_line then
    match validate_checksum_fn 0 line_strip with
    | (cs2, some e) =>
      ({ st with body := body0, checksum := cs2, currentType := some ty }, some e)
    | (cs2, none) =>
      match ops.parseOptions body0 (rstripBytes (line_parse.takeWhile (fun b => b ≠ 42))) with
      | (b1, some e) =>
        ({ st with body := b1, checksum := cs2, currentType := some ty }, some e)
      | (b1, none) =>
        ({ st with
            body := b1, checksum := cs2, currentType := some ty,
            fstate := .complete }, none)
  else
    if 42 ∈ line then
      ({ st with body := body0, checksum := 0, currentType := some ty },
        some (.synErr ("Unexpected checksum for multi-line PDU")))
    else
      match ops.parseOptions body0 (rstripBytes line_parse) with
      | (b1, some e) =>
        ({ st with body := b1, checksum := add_line 0 line, currentType := some ty }, some e)
      | (b1, none) =>
        ({ st with
            body := b1, checksum := add_line 0 line, currentType := some ty,
            fstate := .parsing }, none)

/-- `PduParser::parse_end_line` from mep2_pdu_parser.cpp (production
build: the trailing-data check is enforced). -/
def parse_end_line {β : Type} (ops : BodyOps β) (st : ParserSt β) (line : List Nat) :
    ParserSt β × Option Mep2Err :=
  match validate_pdu_line line with
  | some e => (st, some e)
  | none =>
  match strip_pdu_crlf line with
  | .error e => (st, some e)
  | .ok line_strip =>
  match parse_pdu_start line_strip with
  | none => (st, some (.synErr ("Unknown PDU type")))
  | some (ty, rest0) =>
  if ty ≠ .endPdu then (st, some (.synErr ("Unexpected PDU, expected end")))
  else
    match validate_checksum_fn st.checksum line_strip with
    | (cs2, some e) => ({ st with checksum := cs2 }, some e)
    | (cs2, none) =>
      match pdu_trie.find (lstripBytes (rest0.takeWhile (fun b => b ≠ 42))) with
      | none => ({ st with checksum := cs2 }, some (.synErr ("Unknown PDU type")))
      | some (ety, rest2) =>
        if ety ≠ ops.typeId st.body then
          ({ st with checksum := cs2 },
            some (.synErr ("Unexpected PDU, expected end of current type")))
        else if (lstripBytes rest2).length ≠ 0 then
          ({ st with checksum := cs2 }, some (.synErr ("Unexpected data after end type")))
        else ({ st with checksum := cs2, fstate := .complete }, none)

/-- `PduParser::parse_information_line` from mep2_pdu_parser.cpp
(production build): empty lines are ignored; a leading `/` routes to
the end-line handler followed by the sticky-error rethrow and the
body's `finalize`; any other line is accumulated into the checksum and,
only when no error is pending, dispatched to the body, whose exception
is captured into the sticky slot instead of propagating. -/
def parse_information_line {β : Type} (ops : BodyOps β) (st : ParserSt β) (line : List Nat) :
    ParserSt β × Option Mep2Err :=
  if line.length = 0 then (st, none)
  else if line.head? = some 47 then
    match parse_end_line ops st line with
    | (st1, some e) => (st1, some e)
    | (st1, none) =>
      match st1.currentError with
      | some e => (st1, some e)
      | none =>
        match ops.finalize st1.body with
        | (b2, r) => ({ st1 with body := b2 }, r)
  else
    match st.currentError with
    | some _ => ({ st with checksum := add_line st.checksum line }, none)
    | none =>
      match ops.parseLine st.body line with
      | (b2, none) => ({ st with checksum := add_line st.checksum line, body := b2 }, none)
      | (b2, some e) =>
        ({ st with
            checksum := add_line st.checksum line, body := b2,
            currentError := some e }, none)

/-- `PduParser::parse_line` from mep2_pdu_parser.cpp (production
build): dispatch on the framer state; any line in the `complete` state
throws a `PduSyntaxError`. -/
def parser_parse_line {β : Type} (ops : BodyOps β) (st : ParserSt β) (line : List Nat) :
    ParserSt β × Option Mep2Err :=
  match st.fstate with
  | .idle => parse_first_line ops st line
  | .parsing => parse_information_line ops st line
  | .complete => (st, some (.synErr ("Unexpected data after Pdu")))

/-- The data-free `Pdu` subclasses (`BusyPdu`, `CreatePdu`, `TermPdu`,
`SendPdu`): just the type tag. -/
structure PlainBody where
  ty : PduTypeId
deriving DecidableEq

/-- `BodyOps` instance for the four single-line data-free bodies: the
base `Pdu::parse_options` rejects any non-empty option string, and the
`Pdu::parse_line` / `Pdu::finalize` wrappers reject single-line PDUs.
The remaining constructible types are not modelled here (`make` returns
`none`); the concrete runs below only exercise these four. -/
def plainOps : BodyOps PlainBody where
  make ty :=
    match ty with
    | .busy | .create | .term | .send => some ⟨ty⟩
    | _ => none
  parseOptions b opts :=
    (b, if opts.length ≠ 0 then some (.synErr ("Option for non-option PDU")) else none)
  parseLine b _ := (b, some (.synErr ("Parse line called on single-line PDU")))
  finalize b := (b, some (.synErr ("Finalize calledd single-line PDU")))
  typeId b := b.ty

/-- The parser state reached after a completed `/create*ZZZZ` PDU,
used as a concrete inhabitant of the `complete` framer state. -/
def completedSt : ParserSt PlainBody :=
  (parser_parse_line plainOps (initParser ⟨.busy⟩) (strBytes ("/create*ZZZZ\r"))).1

/-- A mock multi-line body whose information-line parser always throws
`PduMalformedDataError`, standing in for an arbitrary failing body
behind the virtual interface. -/
def mockOps : BodyOps Nat where
  make _ := some 0
  parseOptions b _ := (b, none)
  parseLine b _ := (b + 1, some (.malformed ("boom")))
  finalize b := (b, none)
  typeId _ := .verify

/-- A framer amid a multi-line VERIFY with no pending sticky error. -/
def mockParsingSt : ParserSt Nat :=
  { fstate := .parsing, checksum := 0, currentType := some .verify,
    currentError := none, body := 0 }

/-- A framer amid a multi-line VERIFY with a captured sticky error. -/
def mockStickySt : ParserSt Nat :=
  { mockParsingSt with currentError := some (.malformed ("boom")) }

/-- A concrete address with one 300-byte MBX entry already present,
used to exercise the 305 aggregate bound. -/
def mbxDemoAddr : RawAddress :=
  { ems := strBytes ("INTERNET"), mbx := [List.replicate 300 65] }

/-- All bytes of the list are ASCII digits. -/
def allDigits (l : List Nat) : Prop := ∀ b ∈ l, 48 ≤ b ∧ b ≤ 57

/-- The four surface shapes of the MCI-ID grammar as the specification
words them: three digits, hyphen, four digits; three digits, hyphen,
three digits, hyphen, four digits; exactly seven digits; exactly ten
digits. -/
def mciid_spec (s : List Nat) : Prop :=
  (∃ a b, s = a ++ 45 :: b ∧ a.length = 3 ∧ b.length = 4 ∧ allDigits a ∧ allDigits b) ∨
  (∃ a b c, s = a ++ 45 :: (b ++ 45 :: c) ∧ a.length = 3 ∧ b.length = 3 ∧ c.length = 4 ∧
    allDigits a ∧ allDigits b ∧ allDigits c) ∨
  (s.length = 7 ∧ allDigits s) ∨
  (s.length = 10 ∧ allDigits s)

/-- The 22 timezone codes of the specification table (§4.4). -/
def spec_zone_codes : List (List Nat) :=
  [strBytes ("AHS"), strBytes ("AHD"), strBytes ("YST"), strBytes ("YDT"),
   strBytes ("PST"), strBytes ("PDT"), strBytes ("MST"), strBytes ("MDT"),
   strBytes ("CST"), strBytes ("CDT"), strBytes ("EDT"), strBytes ("EST"),
   strBytes ("AST"), strBytes ("GMT"), strBytes ("BST"), strBytes ("WES"),
   strBytes ("WED"), strBytes ("EMT"), strBytes ("MTS"), strBytes ("MTD"),
   strBytes ("JST"), strBytes ("EAD")]

/-- The timezone codes the source's table actually contains: the 22 of
the specification plus the three extra Sierra Solutions Mailroom
codes. -/
def impl_zone_codes : List (List Nat) :=
  spec_zone_codes ++ [strBytes ("AKT"), strBytes ("HST"), strBytes ("SNG")]

theorem add_line_eq_sum (l : List Nat) :
    ∀ cs, cs < 65536 →
      add_line cs l = (cs + (l.map (fun b => b &&& 0x7F)).sum) % 65536 := by
  induction l with
  | nil =>
    intro cs h
    simpa [add_line] using (Nat.mod_eq_of_lt h).symm
  | cons b l ih =>
    intro cs h
    have hlt : (cs + (b &&& 0x7F)) % 65536 < 65536 := Nat.mod_lt _ (by norm_num)
    calc add_line cs (b :: l)
        = add_line ((cs + (b &&& 0x7F)) % 65536) l := rfl
      _ = ((cs + (b &&& 0x7F)) % 65536 + (l.map (fun b => b &&& 0x7F)).sum) % 65536 :=
          ih _ hlt
      _ = (cs + ((b :: l).map (fun b => b &&& 0x7F)).sum) % 65536 := by
          rw [Nat.mod_add_mod]
          simp [Nat.add_assoc]

theorem add_line_lt (cs : Nat) (l : List Nat) (h : cs < 65536) : add_line cs l < 65536 := by
  rw [add_line_eq_sum l cs h]
  exact Nat.mod_lt _ (by norm_num)

/-- C1: the checksum accumulator invariant. After any sequence of
`add_line` calls starting from a fresh (zero) `PduChecksum`, the 16-bit
value equals the sum of the low 7 bits of every byte fed in, reduced
mod 2^16. -/
theorem C1_checksum_invariant (lines : List (List Nat)) :
    lines.foldl add_line 0 =
      ((lines.flatten.map (fun b => b &&& 0x7F)).sum) % 65536 := by
  suffices h : ∀ (ls : List (List Nat)) (cs : Nat), cs < 65536 →
      ls.foldl add_line cs = (cs + ((ls.flatten.map (fun b => b &&& 0x7F)).sum)) % 65536 by
    simpa using h lines 0 (by norm_num)
  intro ls
  induction ls with
  | nil =>
    intro cs h
    simpa using (Nat.mod_eq_of_lt h).symm
  | cons l ls ih =>
    intro cs h
    calc (l :: ls).foldl add_line cs
        = ls.foldl add_line (add_line cs l) := rfl
      _ = (add_line cs l + ((ls.flatten.map (fun b => b &&& 0x7F)).sum)) % 65536 :=
          ih _ (add_line_lt cs l h)
      _ = (cs + (((l :: ls).flatten.map (fun b => b &&& 0x7F)).sum)) % 65536 := by
          rw [add_line_eq_sum l cs h, Nat.mod_add_mod]
          simp [Nat.add_assoc]

/-- C5: the decoded-CR look-ahead of `decode_string` is dead code — its
guard inspects the final hex digit of the escape just decoded instead
of the next input byte — so a decoded 0x0D is always dropped and
`decode_string("%0D%0A")` yields the empty string, not `"\r\n"`. -/
theorem C5_decode_crlf_escape : decode_string (strBytes ("%0D%0A")) = .ok [] := by decide

/-- C4 (counterexample): feeding `/create*1234\r` to an idle parser
does raise the checksum error, but the accumulator computed at the
comparison point is 0x02CD (the low-7-bit sum of the lowercase
`/create*` prefix), not the 0x026D the claim states. -/
theorem C4_counterexample :
    (parser_parse_line plainOps (initParser ⟨.busy⟩) (strBytes ("/create*1234\r"))).2 =
      some (.checksumErr 0x1234 0x02CD) ∧ (0x02CD : Nat) ≠ 0x026D := by
  constructor
  · decide
  · decide

/-- C4 (amended): feeding `/create*1234\r` to an idle parser raises a
checksum error (code 403) and the parser's accumulator at the
comparison point equals 0x02CD = Σ(b & 0x7F) over `/create*`. -/
theorem C4_seed_checksum_mismatch :
    (parser_parse_line plainOps (initParser ⟨.busy⟩) (strBytes ("/create*1234\r"))).2 =
      some (.checksumErr 0x1234 0x02CD) ∧
    (Mep2Err.checksumErr 0x1234 0x02CD).code = 403 ∧
    add_line 0 (strBytes ("/create*")) = 0x02CD ∧
    (parser_parse_line plainOps (initParser ⟨.busy⟩) (strBytes ("/create*1234\r"))).1.checksum =
      0x02CD := by
  refine ⟨by decide, rfl, by decide, by decide⟩

theorem list_len4 (l : List Nat) (h : l.length = 4) : ∃ a b c d, l = [a, b, c, d] := by
  rcases l with _ | ⟨a, _ | ⟨b, _ | ⟨c, _ | ⟨d, _ | ⟨e, t⟩⟩⟩⟩⟩ <;> simp_all

theorem char_to_hex_lower_ne_z (b v : Nat) (h : char_to_hex b = some v) :
    lowerByte b ≠ 122 := by
  unfold char_to_hex at h
  split_ifs at h with h1 h2
  · unfold lowerByte
    split_ifs <;> omega
  · omega

/-- C3: checksum comparison trichotomy for a 4-character sender field:
a case-insensitive `ZZZZ` always succeeds; four hex digits whose parsed
value disagrees with the accumulator raise code 403; four characters
that do not all parse as hex (and are not the wildcard) raise
code 301. -/
theorem C3_checksum_trichotomy (cs : Nat) (sc : List Nat) (h4 : sc.length = 4) :
    (icompare sc (strBytes ("zzzz")) = true → compare_text_checksum cs sc = none) ∧
    (∀ v, checksum_from_text sc = some v → v ≠ cs →
      compare_text_checksum cs sc = some (.checksumErr v cs) ∧
      (Mep2Err.checksumErr v cs).code = 403) ∧
    (¬ (∀ x ∈ sc, (char_to_hex x).isSome = true) →
      icompare sc (strBytes ("zzzz")) = false →
      compare_text_checksum cs sc = some (.synErr ("Checksum has invalid characters")) ∧
      (Mep2Err.synErr ("Checksum has invalid characters")).code = 301) := by
  obtain ⟨a, b, c, d, rfl⟩ := list_len4 sc h4
  have hzz : strBytes ("zzzz") = [122, 122, 122, 122] := by decide
  refine ⟨?_, ?_, ?_⟩
  · intro h
    simp [compare_text_checksum, h]
  · intro v hv hne
    have hA : ∃ va, char_to_hex a = some va := by
      rcases hA : char_to_hex a with _ | va
      · simp [checksum_from_text, List.foldlM, hA] at hv
      · exact ⟨va, rfl⟩
    obtain ⟨va, hA⟩ := hA
    have hz : icompare [a, b, c, d] (strBytes ("zzzz")) = false := by
      have := char_to_hex_lower_ne_z a va hA
      simp [icompare, icompare_core, hzz, this]
    refine ⟨?_, rfl⟩
    simp [compare_text_checksum, hz, hv, (Ne.symm hne)]
  · intro hbad hz
    have hnone : checksum_from_text [a, b, c, d] = none := by
      rcases hA : char_to_hex a with _ | va <;>
        rcases hB : char_to_hex b with _ | vb <;>
        rcases hC : char_to_hex c with _ | vc <;>
        rcases hD : char_to_hex d with _ | vd <;>
        simp_all [checksum_from_text, List.foldlM]
    refine ⟨?_, rfl⟩
    simp [compare_text_checksum, hz, hnone]

/-- Witness for C3 at the concrete field `1234` against accumulator 0:
hex digits that parse but disagree. -/
theorem C3_checksum_trichotomy_witness :
    (strBytes ("1234")).length = 4 ∧
    ((icompare (strBytes ("1234")) (strBytes ("zzzz")) = true →
        compare_text_checksum 0 (strBytes ("1234")) = none) ∧
     (∀ v, checksum_from_text (strBytes ("1234")) = some v → v ≠ 0 →
        compare_text_checksum 0 (strBytes ("1234")) = some (.checksumErr v 0) ∧
        (Mep2Err.checksumErr v 0).code = 403) ∧
     (¬ (∀ x ∈ strBytes ("1234"), (char_to_hex x).isSome = true) →
        icompare (strBytes ("1234")) (strBytes ("zzzz")) = false →
        compare_text_checksum 0 (strBytes ("1234")) =
          some (.synErr ("Checksum has invalid characters")) ∧
        (Mep2Err.synErr ("Checksum has invalid characters")).code = 301)) :=
  ⟨by decide, C3_checksum_trichotomy 0 (strBytes ("1234")) (by decide)⟩

/-- C10: the MBX length bound of `RawAddress::parse_field` is checked
after the `push_back`, so an append that overflows the 305 aggregate
bound raises the malformed-data error while leaving the offending entry
in the list, whose aggregate length then exceeds 305. -/
theorem C10_mbx_append_not_atomic (a : RawAddress) (field info : List Nat)
    (hmbx : icompare field (strBytes ("mbx:")) = true)
    (hems : a.ems ≠ [])
    (hinfo : info ≠ [])
    (hover : 305 < (a.mbx.map (fun m => m.length)).sum + info.length) :
    a.parse_field field info =
      ({ a with mbx := a.mbx ++ [info] },
        some (.malformed ("MBX routing info larger than 305 characters"))) ∧
    305 < ((a.mbx ++ [info]).map (fun m => m.length)).sum := by
  have hmb : strBytes ("mbx:") = [109, 98, 120, 58] := by decide
  have hem : strBytes ("ems:") = [101, 109, 115, 58] := by decide
  have hlen : ¬ field.length < 4 := by
    intro hc
    have hfalse : icompare field (strBytes ("mbx:")) = false := by
      rw [icompare, if_pos (by rw [hmb]; simpa using hc)]
    rw [hfalse] at hmbx
    exact Bool.false_ne_true hmbx
  have hsum : ((a.mbx ++ [info]).map (fun m => m.length)).sum =
      (a.mbx.map (fun m => m.length)).sum + info.length := by
    simp
  have hes : icompare field (strBytes ("ems:")) = false := by
    rcases field with _ | ⟨f, rest⟩
    · simp at hlen
    · have hf : lowerByte f = 109 := by
        have h4 : ¬ (f :: rest).length < (strBytes ("mbx:")).length := by
          rw [hmb]; simpa using hlen
        rw [icompare, if_neg h4, hmb] at hmbx
        simp [icompare_core] at hmbx
        exact hmbx.1
      have h4 : ¬ (f :: rest).length < (strBytes ("ems:")).length := by
        rw [hem]; simpa using hlen
      rw [icompare, if_neg h4, hem]
      simp [icompare_core, hf]
  refine ⟨?_, by rw [hsum]; omega⟩
  rw [RawAddress.parse_field]
  rw [if_neg hlen, if_neg (by simp [hes]), if_pos hmbx, if_neg (by simp [hems]),
    if_neg (by simp [hinfo])]
  simp only []
  rw [if_pos (by simp only [hsum]; omega)]

/-- Witness for C10: one 300-byte MBX entry, then a 6-byte append. -/
theorem C10_mbx_append_not_atomic_witness :
    (icompare (strBytes ("MBX:")) (strBytes ("mbx:")) = true ∧
     mbxDemoAddr.ems ≠ [] ∧
     List.replicate 6 66 ≠ ([] : List Nat) ∧
     305 < (mbxDemoAddr.mbx.map (fun m => m.length)).sum + (List.replicate 6 66).length) ∧
    (mbxDemoAddr.parse_field (strBytes ("MBX:")) (List.replicate 6 66) =
      ({ mbxDemoAddr with mbx := mbxDemoAddr.mbx ++ [List.replicate 6 66] },
        some (.malformed ("MBX routing info larger than 305 characters"))) ∧
     305 < ((mbxDemoAddr.mbx ++ [List.replicate 6 66]).map
        (fun m : List Nat => m.length)).sum) :=
  ⟨⟨by decide, by decide, by decide, by decide⟩,
    C10_mbx_append_not_atomic mbxDemoAddr (strBytes ("MBX:")) (List.replicate 6 66)
      (by decide) (by decide) (by decide) (by decide)⟩

theorem parse_end_line_keeps_error {β : Type} (ops : BodyOps β) (st : ParserSt β)
    (line : List Nat) :
    (parse_end_line ops st line).1.currentError = st.currentError := by
  rw [parse_end_line]
  repeat' split
  all_goals rfl

/-- C2: sticky-error propagation in a production build. With the framer
amid a multi-line PDU: (1) a failing body parse of an information line
returns normally with the error captured and the checksum accumulated;
(2) with a sticky error pending, further information lines are still
accumulated into the checksum and not dispatched; (3) a well-formed END
line (checksum already validated inside `parse_end_line`) re-raises the
captured error; (4) an END-line failure (e.g. checksum mismatch) is
raised instead. -/
theorem C2_sticky_error_propagation {β : Type} (ops : BodyOps β) (st : ParserSt β)
    (line : List Nat) (hst : st.fstate = .parsing) (hne : line.length ≠ 0)
    (hns : line.head? ≠ some 47) :
    (∀ b2 e, st.currentError = none → ops.parseLine st.body line = (b2, some e) →
      parser_parse_line ops st line =
        ({ st with
            checksum := add_line st.checksum line, body := b2,
            currentError := some e }, none)) ∧
    (∀ e0, st.currentError = some e0 →
      parser_parse_line ops st line =
        ({ st with checksum := add_line st.checksum line }, none)) ∧
    (∀ endLine st1 e0, st.currentError = some e0 → endLine.head? = some 47 →
      parse_end_line ops st endLine = (st1, none) →
      parser_parse_line ops st endLine = (st1, some e0)) ∧
    (∀ endLine st1 e1, endLine.head? = some 47 →
      parse_end_line ops st endLine = (st1, some e1) →
      parser_parse_line ops st endLine = (st1, some e1)) := by
  obtain ⟨fs, cs, ct, ce, bd⟩ := st
  simp only at hst
  subst hst
  refine ⟨?_, ?_, ?_, ?_⟩
  · intro b2 e hce hpl
    simp only at hce
    subst hce
    simp [parser_parse_line, parse_information_line, hne, hns, hpl]
  · intro e0 hce
    simp only at hce
    subst hce
    simp [parser_parse_line, parse_information_line, hne, hns]
  · intro endLine st1 e0 hce h47 hpe
    simp only at hce
    subst hce
    have hlen : endLine.length ≠ 0 := by
      rcases endLine with _ | ⟨x, t⟩ <;> simp_all
    have hpres := congrArg (fun p => p.1.currentError) hpe
    simp only at hpres
    rw [parse_end_line_keeps_error] at hpres
    simp only at hpres
    simp [parser_parse_line, parse_information_line, hlen, h47, hpe, ← hpres]
  · intro endLine st1 e1 h47 hpe
    have hlen : endLine.length ≠ 0 := by
      rcases endLine with _ | ⟨x, t⟩ <;> simp_all
    simp [parser_parse_line, parse_information_line, hlen, h47, hpe]

/-- Witness for C2: the mock failing VERIFY body, one information line
and one well-formed END line. -/
theorem C2_sticky_error_propagation_witness :
    (mockParsingSt.fstate = .parsing ∧ (strBytes ("To: X\r\n")).length ≠ 0 ∧
      (strBytes ("To: X\r\n")).head? ≠ some 47) ∧
    ((∀ b2 e, mockParsingSt.currentError = none →
      mockOps.parseLine mockParsingSt.body (strBytes ("To: X\r\n")) = (b2, some e) →
      parser_parse_line mockOps mockParsingSt (strBytes ("To: X\r\n")) =
        ({ mockParsingSt with
            checksum := add_line mockParsingSt.checksum (strBytes ("To: X\r\n")),
            body := b2, currentError := some e }, none)) ∧
    (∀ e0, mockParsingSt.currentError = some e0 →
      parser_parse_line mockOps mockParsingSt (strBytes ("To: X\r\n")) =
        ({ mockParsingSt with
            checksum := add_line mockParsingSt.checksum (strBytes ("To: X\r\n")) }, none)) ∧
    (∀ endLine st1 e0, mockParsingSt.currentError = some e0 → endLine.head? = some 47 →
      parse_end_line mockOps mockParsingSt endLine = (st1, none) →
      parser_parse_line mockOps mockParsingSt endLine = (st1, some e0)) ∧
    (∀ endLine st1 e1, endLine.head? = some 47 →
      parse_end_line mockOps mockParsingSt endLine = (st1, some e1) →
      parser_parse_line mockOps mockParsingSt endLine = (st1, some e1))) :=
  ⟨⟨rfl, by decide, by decide⟩,
    C2_sticky_error_propagation mockOps mockParsingSt (strBytes ("To: X\r\n"))
      rfl (by decide) (by decide)⟩

/-- C9 (counterexample): a parser in the `complete` state raises an
error of code 301 on a further line, not the 302 the claim states. -/
theorem C9_counterexample :
    (parser_parse_line plainOps completedSt (strBytes ("x\r"))).2.map Mep2Err.code =
      some 301 ∧
    (parser_parse_line plainOps completedSt (strBytes ("x\r"))).2.map Mep2Err.code ≠
      some 302 := by
  constructor
  · decide
  · decide

/-- C9 (amended): in a production build, calling `parse_line` with any
line while the framer is in the `complete` state raises a
`PduSyntaxError`, whose MEP2 code is 301. -/
theorem C9_complete_state_301 {β : Type} (ops : BodyOps β) (st : ParserSt β)
    (line : List Nat) (h : st.fstate = .complete) :
    parser_parse_line ops st line = (st, some (.synErr ("Unexpected data after Pdu"))) ∧
    (Mep2Err.synErr ("Unexpected data after Pdu")).code = 301 := by
  refine ⟨?_, rfl⟩
  simp [parser_parse_line, h]

/-- Witness for C9: the completed parser obtained from the
`/create*ZZZZ` run, fed one more line. -/
theorem C9_complete_state_301_witness :
    completedSt.fstate = .complete ∧
    (parser_parse_line plainOps completedSt (strBytes ("x\r")) =
      (completedSt, some (.synErr ("Unexpected data after Pdu"))) ∧
    (Mep2Err.synErr ("Unexpected data after Pdu")).code = 301) :=
  ⟨by decide, C9_complete_state_301 plainOps completedSt (strBytes ("x\r")) (by decide)⟩

theorem eatHyphen_some_iff (l r : List Nat) : eatHyphen l = some r ↔ l = 45 :: r := by
  cases l with
  | nil => simp [eatHyphen]
  | cons b t =>
    by_cases hb : b = 45
    · subst hb
      simp [eatHyphen]
    · simp [eatHyphen, hb]

theorem eatDigits_some_iff (n : Nat) : ∀ (l r : List Nat),
    eatDigits n l = some r ↔ ∃ xs, l = xs ++ r ∧ xs.length = n ∧ allDigits xs := by
  induction n with
  | zero =>
    intro l r
    constructor
    · intro h
      simp [eatDigits] at h
      exact ⟨[], by simp [h], rfl, by simp [allDigits]⟩
    · rintro ⟨xs, rfl, hlen, _⟩
      rw [List.length_eq_zero] at hlen
      simp [eatDigits, hlen]
  | succ n ih =>
    intro l r
    cases l with
    | nil =>
      constructor
      · intro h
        simp [eatDigits] at h
      · rintro ⟨xs, hxs, hlen, _⟩
        rcases xs with _ | ⟨y, ys⟩ <;> simp_all
    | cons b t =>
      by_cases hb : 48 ≤ b ∧ b ≤ 57
      · rw [show eatDigits (n + 1) (b :: t) = eatDigits n t from by simp [eatDigits, hb], ih]
        constructor
        · rintro ⟨xs, rfl, hlen, hdig⟩
          refine ⟨b :: xs, rfl, by simp [hlen], ?_⟩
          intro x hx
          rcases List.mem_cons.mp hx with rfl | hx
          · exact hb
          · exact hdig x hx
        · rintro ⟨ys, hys, hlen, hdig⟩
          rcases ys with _ | ⟨y, ys⟩
          · simp at hlen
          · rw [List.cons_append] at hys
            injection hys with h1 h2
            subst h1
            exact ⟨ys, h2, by simpa using hlen, fun x hx => hdig x (List.mem_cons_of_mem _ hx)⟩
      · rw [show eatDigits (n + 1) (b :: t) = none from by simp [eatDigits, hb]]
        constructor
        · intro h
          simp at h
        · rintro ⟨ys, hys, hlen, hdig⟩
          rcases ys with _ | ⟨y, ys⟩
          · simp at hlen
          · rw [List.cons_append] at hys
            injection hys with h1 h2
            subst h1
            exact absurd (hdig b (by simp)) hb

theorem shape1_iff (s : List Nat) :
    ((((eatDigits 3 s).bind eatHyphen).bind (eatDigits 4)) = some []) ↔
    ∃ a b, s = a ++ 45 :: b ∧ a.length = 3 ∧ b.length = 4 ∧ allDigits a ∧ allDigits b := by
  constructor
  · intro h
    rw [Option.bind_eq_some] at h
    obtain ⟨x1, hx1, h1⟩ := h
    rw [Option.bind_eq_some] at hx1
    obtain ⟨x2, hx2, h2⟩ := hx1
    obtain ⟨a, rfl, ha3, hda⟩ := (eatDigits_some_iff 3 s x2).mp hx2
    rw [eatHyphen_some_iff] at h2
    subst h2
    obtain ⟨b, hb, hb4, hdb⟩ := (eatDigits_some_iff 4 x1 []).mp h1
    rw [List.append_nil] at hb
    subst hb
    exact ⟨a, x1, rfl, ha3, hb4, hda, hdb⟩
  · rintro ⟨a, b, rfl, ha3, hb4, hda, hdb⟩
    rw [Option.bind_eq_some]
    refine ⟨b, ?_, (eatDigits_some_iff 4 _ _).mpr ⟨b, by simp, hb4, hdb⟩⟩
    rw [Option.bind_eq_some]
    exact ⟨45 :: b, (eatDigits_some_iff 3 _ _).mpr ⟨a, rfl, ha3, hda⟩,
      (eatHyphen_some_iff _ _).mpr rfl⟩

theorem shape2_iff (s : List Nat) :
    ((((((eatDigits 3 s).bind eatHyphen).bind (eatDigits 3)).bind eatHyphen).bind
      (eatDigits 4)) = some []) ↔
    ∃ a b c, s = a ++ 45 :: (b ++ 45 :: c) ∧ a.length = 3 ∧ b.length = 3 ∧ c.length = 4 ∧
      allDigits a ∧ allDigits b ∧ allDigits c := by
  constructor
  · intro h
    rw [Option.bind_eq_some] at h
    obtain ⟨x1, hx1, h1⟩ := h
    rw [Option.bind_eq_some] at hx1
    obtain ⟨x2, hx2, h2⟩ := hx1
    rw [Option.bind_eq_some] at hx2
    obtain ⟨x3, hx3, h3⟩ := hx2
    rw [Option.bind_eq_some] at hx3
    obtain ⟨x4, hx4, h4⟩ := hx3
    obtain ⟨a, rfl, ha3, hda⟩ := (eatDigits_some_iff 3 s x4).mp hx4
    rw [eatHyphen_some_iff] at h4
    subst h4
    obtain ⟨b, hb, hb3, hdb⟩ := (eatDigits_some_iff 3 x3 x2).mp h3
    rw [eatHyphen_some_iff] at h2
    obtain ⟨c, hc, hc4, hdc⟩ := (eatDigits_some_iff 4 x1 []).mp h1
    rw [List.append_nil] at hc
    subst hc
    subst hb
    subst h2
    exact ⟨a, b, x1, rfl, ha3, hb3, hc4, hda, hdb, hdc⟩
  · rintro ⟨a, b, c, rfl, ha3, hb3, hc4, hda, hdb, hdc⟩
    rw [Option.bind_eq_some]
    refine ⟨c, ?_, (eatDigits_some_iff 4 _ _).mpr ⟨c, by simp, hc4, hdc⟩⟩
    rw [Option.bind_eq_some]
    refine ⟨45 :: c, ?_, (eatHyphen_some_iff _ _).mpr rfl⟩
    rw [Option.bind_eq_some]
    refine ⟨b ++ 45 :: c, ?_, (eatDigits_some_iff 3 _ _).mpr ⟨b, rfl, hb3, hdb⟩⟩
    rw [Option.bind_eq_some]
    exact ⟨45 :: (b ++ 45 :: c), (eatDigits_some_iff 3 _ _).mpr ⟨a, rfl, ha3, hda⟩,
      (eatHyphen_some_iff _ _).mpr rfl⟩

theorem shapeAll_iff (n : Nat) (s : List Nat) :
    (eatDigits n s = some []) ↔ (s.length = n ∧ allDigits s) := by
  rw [eatDigits_some_iff]
  constructor
  · rintro ⟨xs, rfl, hlen, hdig⟩
    simp_all
  · rintro ⟨hlen, hdig⟩
    exact ⟨s, by simp, hlen, hdig⟩

theorem is_mciid_iff_spec (s : List Nat) : is_mciid s = true ↔ mciid_spec s := by
  rw [is_mciid, mciid_spec]
  simp only [Bool.or_eq_true, beq_iff_eq]
  rw [or_assoc, or_assoc]
  exact or_congr (shape1_iff s)
    (or_congr (shape2_iff s) (or_congr (shapeAll_iff 7 s) (shapeAll_iff 10 s)))

/-- C6: `is_mciid` accepts exactly the four shapes of the specification
grammar and nothing else; in particular the two concrete strings with a
hyphen in the wrong position and with a single hyphen in a 12-character
string are rejected. -/
theorem C6_is_mciid_exact_shapes :
    (∀ s, is_mciid s = true ↔ mciid_spec s) ∧
    is_mciid (strBytes ("123-45678901")) = false ∧
    is_mciid (strBytes ("1234567-")) = false ∧
    is_mciid (strBytes ("12345-7890")) = false :=
  ⟨is_mciid_iff_spec, by decide, by decide, by decide⟩

theorem allDigits_count45 (l : List Nat) (h : allDigits l) : l.count 45 = 0 := by
  rw [List.count_eq_zero]
  intro hm
  have := h 45 hm
  omega

theorem allDigits_subset {l1 l : List Nat} (hsub : l1 ⊆ l) (h : allDigits l) : allDigits l1 :=
  fun x hx => h x (hsub hx)

/-- C7: for every input accepted by `is_mciid`, `canonicalize_mciid`
succeeds with a result of length 8 or 12 containing exactly one or two
hyphens; the two example canonicalizations strip the `000` prefix and
insert hyphens as the specification states. -/
theorem C7_canonicalize_mciid_shape (s : List Nat) (h : is_mciid s = true) :
    (∃ r, canonicalize_mciid s = .ok r ∧ (r.length = 8 ∨ r.length = 12) ∧
      (r.count 45 = 1 ∨ r.count 45 = 2)) ∧
    canonicalize_mciid (strBytes ("0001111111")) = .ok (strBytes ("111-1111")) ∧
    canonicalize_mciid (strBytes ("0011111111")) = .ok (strBytes ("001-111-1111")) := by
  refine ⟨?_, by decide, by decide⟩
  have hspec := (is_mciid_iff_spec s).mp h
  rw [canonicalize_mciid, if_neg (by simp [h])]
  rcases hspec with ⟨a, b, rfl, ha3, hb4, hda, hdb⟩ |
    ⟨a, b, c, rfl, ha3, hb3, hc4, hda, hdb, hdc⟩ | ⟨h7, hd⟩ | ⟨h10, hd⟩
  · -- NNN-NNNN: already canonical
    have hlen : (a ++ 45 :: b).length = 8 := by simp [ha3, hb4]
    rw [if_pos hlen]
    refine ⟨_, rfl, Or.inl hlen, Or.inl ?_⟩
    simp [List.count_append, List.count_cons, allDigits_count45 a hda, allDigits_count45 b hdb]
  · -- NNN-NNN-NNNN: canonical unless it starts with 000-
    have hlen : (a ++ 45 :: (b ++ 45 :: c)).length = 12 := by simp [ha3, hb3, hc4]
    rw [if_neg (by simp [hlen])]
    have htake : (a ++ 45 :: (b ++ 45 :: c)).take 3 = a := List.take_left' ha3
    by_cases hz : a = [48, 48, 48]
    · have hget : (a ++ 45 :: (b ++ 45 :: c))[3]? = some 45 := by
        rw [List.getElem?_append_right (by omega : a.length ≤ 3), ha3]
        simp
      have hdrop : (a ++ 45 :: (b ++ 45 :: c)).drop 4 = b ++ 45 :: c := by
        rw [List.append_cons a 45 (b ++ 45 :: c), List.drop_left' (by simp [ha3])]
      have hstrip : canonicalize_strip (a ++ 45 :: (b ++ 45 :: c)) = b ++ 45 :: c := by
        rw [canonicalize_strip, if_pos ⟨by omega, by rw [htake, hz]⟩, if_pos hget, hdrop]
      have hrest : canonicalize_rest (b ++ 45 :: c) = b ++ 45 :: c := by
        rw [canonicalize_rest, if_pos (Or.inl (by simp [hb3, hc4]))]
      refine ⟨_, by rw [hstrip, hrest], Or.inl (by simp [hb3, hc4]), Or.inl ?_⟩
      simp [List.count_append, List.count_cons, allDigits_count45 b hdb,
        allDigits_count45 c hdc]
    · have hstrip : canonicalize_strip (a ++ 45 :: (b ++ 45 :: c)) =
          a ++ 45 :: (b ++ 45 :: c) := by
        rw [canonicalize_strip, if_neg]
        rintro ⟨_, ht⟩
        rw [htake] at ht
        exact hz ht
      have hrest : canonicalize_rest (a ++ 45 :: (b ++ 45 :: c)) =
          a ++ 45 :: (b ++ 45 :: c) := by
        rw [canonicalize_rest, if_pos (Or.inr hlen)]
      refine ⟨_, by rw [hstrip, hrest], Or.inr hlen, Or.inr ?_⟩
      simp [List.count_append, List.count_cons, allDigits_count45 a hda,
        allDigits_count45 b hdb, allDigits_count45 c hdc]
  · -- NNNNNNN: hyphen inserted
    rw [if_neg (by simp [h7])]
    have hstrip : canonicalize_strip s = s := by
      rw [canonicalize_strip, if_neg]
      rintro ⟨h10', _⟩
      omega
    have hrest : canonicalize_rest s = s.take 3 ++ 45 :: s.drop 3 := by
      rw [canonicalize_rest, if_neg (by simp [h7]), if_pos h7]
    have hdt : allDigits (s.take 3) := allDigits_subset (List.take_subset 3 s) hd
    have hdd : allDigits (s.drop 3) := allDigits_subset (List.drop_subset 3 s) hd
    refine ⟨_, by rw [hstrip, hrest], Or.inl ?_, Or.inl ?_⟩
    · simp [List.length_take, List.length_drop, h7]
    · simp [List.count_append, List.count_cons, allDigits_count45 _ hdt,
        allDigits_count45 _ hdd]
  · -- NNNNNNNNNN: 000-stripped or fully hyphenated
    rw [if_neg (by simp [h10])]
    by_cases hz : s.take 3 = [48, 48, 48]
    · have h3lt : 3 < s.length := by omega
      have hget : s[3]? = some (s.get ⟨3, h3lt⟩) := List.getElem?_eq_getElem h3lt
      have hne45 : ¬ s[3]? = some 45 := by
        rw [hget]
        intro heq
        injection heq with heq
        have := hd _ (List.get_mem s 3 h3lt)
        omega
      have hstrip : canonicalize_strip s = s.drop 3 := by
        rw [canonicalize_strip, if_pos ⟨by omega, hz⟩, if_neg hne45]
      have hlen7 : (s.drop 3).length = 7 := by simp [h10]
      have hrest : canonicalize_rest (s.drop 3) =
          (s.drop 3).take 3 ++ 45 :: (s.drop 3).drop 3 := by
        rw [canonicalize_rest, if_neg (by simp [hlen7]), if_pos hlen7]
      have hdd : allDigits (s.drop 3) := allDigits_subset (List.drop_subset 3 s) hd
      have hdt : allDigits ((s.drop 3).take 3) :=
        allDigits_subset (List.take_subset 3 (s.drop 3)) hdd
      have hddd : allDigits ((s.drop 3).drop 3) :=
        allDigits_subset (List.drop_subset 3 (s.drop 3)) hdd
      have hd6 : allDigits (s.drop 6) := allDigits_subset (List.drop_subset 6 s) hd
      refine ⟨_, by rw [hstrip, hrest], Or.inl ?_, Or.inl ?_⟩
      · simp [List.length_take, List.length_drop, h10]
      · simp [List.count_append, List.count_cons, allDigits_count45 _ hdt,
          allDigits_count45 _ hddd, allDigits_count45 _ hd6]
    · have hstrip : canonicalize_strip s = s := by
        rw [canonicalize_strip, if_neg]
        rintro ⟨_, ht⟩
        exact hz ht
      have hrest : canonicalize_rest s =
          s.take 3 ++ 45 :: ((s.drop 3).take 3 ++ 45 :: s.drop 6) := by
        rw [canonicalize_rest, if_neg (by simp [h10]), if_neg (by simp [h10])]
      have hdt : allDigits (s.take 3) := allDigits_subset (List.take_subset 3 s) hd
      have hdd : allDigits (s.drop 3) := allDigits_subset (List.drop_subset 3 s) hd
      have hdt2 : allDigits ((s.drop 3).take 3) :=
        allDigits_subset (List.take_subset 3 (s.drop 3)) hdd
      have hd6 : allDigits (s.drop 6) := allDigits_subset (List.drop_subset 6 s) hd
      refine ⟨_, by rw [hstrip, hrest], Or.inr ?_, Or.inr ?_⟩
      · simp [List.length_append, List.length_take, List.length_drop, h10]
      · simp [List.count_append, List.count_cons, allDigits_count45 _ hdt,
          allDigits_count45 _ hdt2, allDigits_count45 _ hd6]

/-- Witness for C7 at the concrete accepted input `0001111111`. -/
theorem C7_canonicalize_mciid_shape_witness :
    is_mciid (strBytes ("0001111111")) = true ∧
    ((∃ r, canonicalize_mciid (strBytes ("0001111111")) = .ok r ∧
      (r.length = 8 ∨ r.length = 12) ∧ (r.count 45 = 1 ∨ r.count 45 = 2)) ∧
    canonicalize_mciid (strBytes ("0001111111")) = .ok (strBytes ("111-1111")) ∧
    canonicalize_mciid (strBytes ("0011111111")) = .ok (strBytes ("001-111-1111"))) :=
  ⟨by decide, C7_canonicalize_mciid_shape (strBytes ("0001111111")) (by decide)⟩

theorem find_isSome_iff_impl (z : List Nat) :
    (mep2_to_iana_find z).isSome = true ↔ z ∈ impl_zone_codes := by
  have h1 : ∀ x ∈ mep2_to_iana_entries.map Prod.fst, x ∈ impl_zone_codes := by decide
  have h2 : ∀ x ∈ impl_zone_codes, x ∈ mep2_to_iana_entries.map Prod.fst := by decide
  have hmem : z ∈ mep2_to_iana_entries.map Prod.fst ↔ z ∈ impl_zone_codes :=
    ⟨fun h => h1 z h, fun h => h2 z h⟩
  have hiso : ∀ (X : Option (List Nat × List Nat)),
      (Option.map (fun p => p.2) X).isSome = X.isSome := by
    intro X
    rcases X <;> rfl
  have hgen : ∀ (es : List (List Nat × List Nat)),
      (∃ x, x ∈ es ∧ (x.1 == z) = true) ↔ z ∈ es.map Prod.fst := by
    intro es
    simp only [List.mem_map, beq_iff_eq]
  rw [← hmem, mep2_to_iana_find, hiso, List.find?_isSome]
  exact hgen mep2_to_iana_entries

/-- C8 (counterexample): the timestamp `Sun Aug 11, 2024 12:00 AM AKT`
is well-formed and carries a zone code outside the 22 codes of the
specification table, yet `Date::parse` accepts it. -/
theorem C8_counterexample :
    (∃ r, date_parse (strBytes ("Sun Aug 11, 2024 12:00 AM AKT")) = .ok r) ∧
    strBytes ("AKT") ∉ spec_zone_codes :=
  ⟨⟨⟨strBytes ("AKT"), strBytes ("Etc/GMT+9")⟩, by decide⟩, by decide⟩

/-- C8 (amended): given an otherwise well-formed 29-byte timestamp,
`Date::parse` accepts the zone code exactly when it is one of the 22
specification codes or one of the three extra codes `AKT`, `HST`,
`SNG` present in the source's table; the duplicated `MST` key resolves
to the first-inserted `Etc/GMT+7` (UTC−7). -/
theorem C8_zone_acceptance (l : List Nat) (h29 : l.length = 29)
    (hfmt : datetime_ok (l.take 25) = true) :
    ((∃ r, date_parse l = .ok r) ↔ (l.drop 26) ∈ impl_zone_codes) ∧
    mep2_to_iana_find (strBytes ("MST")) = some (strBytes ("Etc/GMT+7")) := by
  refine ⟨?_, by decide⟩
  rw [date_parse, if_neg (by simp [h29]), if_neg (by simp [hfmt])]
  rcases hfind : mep2_to_iana_find (l.drop 26) with _ | iana
  · have := (find_isSome_iff_impl (l.drop 26)).symm
    rw [hfind] at this
    simp at this
    simp [this]
  · have := (find_isSome_iff_impl (l.drop 26))
    rw [hfind] at this
    simp at this
    simp [this]

/-- Witness for C8 at the concrete accepted timestamp
`Sun Aug 11, 2024 12:00 AM PST`. -/
theorem C8_zone_acceptance_witness :
    ((strBytes ("Sun Aug 11, 2024 12:00 AM PST")).length = 29 ∧
     datetime_ok ((strBytes ("Sun Aug 11, 2024 12:00 AM PST")).take 25) = true) ∧
    (((∃ r, date_parse (strBytes ("Sun Aug 11, 2024 12:00 AM PST")) = .ok r) ↔
      ((strBytes ("Sun Aug 11, 2024 12:00 AM PST")).drop 26) ∈ impl_zone_codes) ∧
     mep2_to_iana_find (strBytes ("MST")) = some (strBytes ("Etc/GMT+7"))) :=
  ⟨⟨by decide, by decide⟩,
    C8_zone_acceptance (strBytes ("Sun Aug 11, 2024 12:00 AM PST")) (by decide) (by decide)⟩

end MCImail
